import Mathlib

/-!
Verification of `src/deploy_viewers.py` (k8s-kick-bots).

The script fans out N Kubernetes Deployment/Service pairs from one YAML
template, assigning each instance a VPN identity token taken from the keys of
a ConfigMap.  The development below is a shallow embedding of that script:

* parsed YAML label maps become association lists with Python-dict update
  semantics (`dictSet`),
* Python strings become Lean `String` (a `List Char` under the hood), with
  `str.replace`/`str.endswith` for the fixed pattern `".ovpn"` modelled
  character by character (`replaceOvpn`, `endsOvpn`),
* the Kubernetes API is an oracle giving one of `ok / conflict(409) / other`
  per call, and `main`'s observable behaviour is a `RunResult` (abort with a
  diagnostic, or the list of per-instance records) plus the trace of
  mutating API calls issued,
* `copy.deepcopy` plus in-place mutation is additionally modelled by a small
  address/store semantics (`heapRun`) used to state that the base templates
  are never mutated.
-/

/-! ## Characters of the pattern `".ovpn"` -/

/-- The character list of the recognized suffix `".ovpn"`
(`deploy_viewers.py` line 19). -/
def ovpn : List Char := ['.', 'o', 'v', 'p', 'n']

/-- Python `key.replace('.ovpn', '')` (line 19): scan left to right and drop
every non-overlapping occurrence of `".ovpn"`. -/
def replaceOvpn : List Char → List Char
  | c1 :: c2 :: c3 :: c4 :: c5 :: rest =>
    if c1 = '.' ∧ c2 = 'o' ∧ c3 = 'v' ∧ c4 = 'p' ∧ c5 = 'n' then
      replaceOvpn rest
    else
      c1 :: replaceOvpn (c2 :: c3 :: c4 :: c5 :: rest)
  | c :: rest => c :: replaceOvpn rest
  | [] => []

/-- Whether `".ovpn"` occurs anywhere in the character list (used to state
when "replace all occurrences" and "strip the trailing suffix" agree). -/
def containsOvpn : List Char → Bool
  | c1 :: c2 :: c3 :: c4 :: c5 :: rest =>
    if c1 = '.' ∧ c2 = 'o' ∧ c3 = 'v' ∧ c4 = 'p' ∧ c5 = 'n' then
      true
    else
      containsOvpn (c2 :: c3 :: c4 :: c5 :: rest)
  | _ :: rest => containsOvpn rest
  | [] => false

/-- Python `key.endswith('.ovpn')` (line 19): the last five characters are
`".ovpn"`. -/
def endsOvpn (l : List Char) : Bool := l.drop (l.length - 5) == ovpn

/-- String form of `replaceOvpn`. -/
def replaceOvpnStr (s : String) : String := ⟨replaceOvpn s.data⟩

/-- String form of `endsOvpn`. -/
def endsOvpnStr (s : String) : Bool := endsOvpn s.data

/-- String form of `containsOvpn`. -/
def containsOvpnStr (s : String) : Bool := containsOvpn s.data

/-- Modelled from the spec: "strips that suffix to obtain the token name" —
the key with exactly its trailing `".ovpn"` suffix removed and nothing else
altered.  This is the comparison definition for the claim about token
resolution; the code itself uses `replaceOvpnStr`. -/
def specTrailingStrip (s : String) : String := ⟨s.data.take (s.data.length - 5)⟩

/-- `get_available_vpn_configs` (lines 12-22): keep the ConfigMap data keys
ending in `".ovpn"`, in source order, and drop every occurrence of
`".ovpn"` from each kept key. -/
def getAvailableVpnConfigs (keys : List String) : List String :=
  (keys.filter (fun k => endsOvpnStr k)).map (fun k => replaceOvpnStr k)

/-! ## Label maps (Python dicts of strings) -/

/-- Python dict assignment `m[k] = v` on a string-keyed map rendered as an
association list: overwrite the entry for `k` in place, else append. -/
def dictSet : List (String × String) → String → String → List (String × String)
  | [], k, v => [(k, v)]
  | p :: ps, k, v => if p.1 = k then (k, v) :: ps else p :: dictSet ps k v

/-- Python `m.get(k)`: the value at the first entry for `k`, if any. -/
def dictGet? (m : List (String × String)) (k : String) : Option String :=
  (m.find? (fun p => p.1 == k)).map (fun p => p.2)

/-- Python `m.get(k, d)`. -/
def dictGetD (m : List (String × String)) (k d : String) : String :=
  (dictGet? m k).getD d

/-! ## Containers and environment variables -/

/-- One entry of a container's `env` list (a dict with `name` and `value`). -/
structure EnvVar where
  name : String
  value : String
deriving DecidableEq, Repr

/-- Python dict assignment `env_map[v.name] = v` (lines 112-116; the key is
always the variable's own name): overwrite the entry with that name in
place, else append. -/
def envSet : List EnvVar → EnvVar → List EnvVar
  | [], v => [v]
  | e :: es, v => if e.name = v.name then v :: es else e :: envSet es v

/-- Lookup by variable name (first entry wins, as in a dict). -/
def envGet? (m : List EnvVar) (n : String) : Option EnvVar :=
  m.find? (fun e => e.name == n)

/-- The last entry of `env` carrying name `n`, if any — what the dict
comprehension at line 112 retains for duplicated names. -/
def envLast? (env : List EnvVar) (n : String) : Option EnvVar :=
  (env.filter (fun e => e.name == n)).getLast?

/-- The dict comprehension `{ev['name']: ev for ev in env_vars}` (line 112):
fold the declared variables into a by-name map. -/
def envFold (env : List EnvVar) : List EnvVar := env.foldl envSet []

/-- The three variable names injected by the script. -/
def injectedNames : List String := ["BOX_NAME", "STREAM_URL", "VPN_CONFIG"]

/-- Lines 112-118: build the by-name map from the declared `env`, overwrite
`BOX_NAME`, `STREAM_URL` and `VPN_CONFIG`, and take the map's values as the
new `env` list. -/
def injectEnv (env : List EnvVar) (suffix streamUrl vpnName : String) : List EnvVar :=
  envSet
    (envSet
      (envSet (envFold env) ⟨"BOX_NAME", "box" ++ suffix⟩)
      ⟨"STREAM_URL", streamUrl⟩)
    ⟨"VPN_CONFIG", vpnName⟩

/-- A container: its `name` and its `env` list (`container.get('env', [])`
renders a missing `env` as `[]`). -/
structure Container where
  name : String
  env : List EnvVar
deriving DecidableEq, Repr

/-- The loop over `spec.template.spec.containers` (lines 107-120): inject the
environment into the first container named `"viewer-box"` and stop
(`break`); the returned flag is `container_updated`. -/
def updateContainers (suffix streamUrl vpnName : String) : List Container → List Container × Bool
  | [] => ([], false)
  | c :: cs =>
    if c.name = ("viewer-box" : String) then
      ({ c with env := injectEnv c.env suffix streamUrl vpnName } :: cs, true)
    else
      let r := updateContainers suffix streamUrl vpnName cs
      (c :: r.1, r.2)

/-! ## Templates -/

/-- The fields of a parsed Deployment document that the script touches.
`Option` marks the spots read with `.get`/`setdefault` (absent keys are
tolerated there); the other fields are accessed unconditionally. -/
structure Deployment where
  name? : Option String
  metaLabels? : Option (List (String × String))
  replicas? : Option Nat
  selectorMatchLabels : List (String × String)
  podLabels? : Option (List (String × String))
  containers : List Container
deriving DecidableEq, Repr

/-- The fields of a parsed Service document that the script touches. -/
structure Service where
  name? : Option String
  metaLabels? : Option (List (String × String))
  selector : List (String × String)
deriving DecidableEq, Repr

/-- `instance_suffix = f"-{i}"` (line 83). -/
def instanceSuffix (i : Nat) : String := "-" ++ toString i

/-- The component label derived at lines 91-92:
`matchLabels.get('component', 'viewer')` followed by the instance suffix. -/
def newComponentLabel (bd : Deployment) (i : Nat) : String :=
  dictGetD bd.selectorMatchLabels ("component") ("viewer") ++ instanceSuffix i

/-- The instantiated deployment name (lines 88-89). -/
def newDeploymentName (bd : Deployment) (i : Nat) : String :=
  (bd.name?.getD ("viewer-deployment")) ++ instanceSuffix i

/-- Lines 86-120: rewrite the deep copy of the base deployment for instance
`i` — name, metadata labels, replica count, selector labels, pod-template
labels and container environment.  The `Bool` is `container_updated`
(line 107); `false` means the missing-container warning fires (line 123). -/
def materializeDeployment (bd : Deployment) (i : Nat) (vpnName streamUrl : String)
    (replicas : Nat) : Deployment × Bool :=
  let suffix := instanceSuffix i
  let comp := newComponentLabel bd i
  let r := updateContainers suffix streamUrl vpnName bd.containers
  ({ name? := some (newDeploymentName bd i),
     metaLabels? := some (dictSet (bd.metaLabels?.getD []) ("deployment-instance") (toString i)),
     replicas? := some replicas,
     selectorMatchLabels :=
       dictSet (dictSet bd.selectorMatchLabels ("component") comp)
         ("deployment-instance") (toString i),
     podLabels? :=
       some (dictSet (dictSet (bd.podLabels?.getD []) ("component") comp)
         ("deployment-instance") (toString i)),
     containers := r.1 }, r.2)

/-- The instantiated service name (lines 141-142). -/
def newServiceName (bs : Service) (i : Nat) : String :=
  (bs.name?.getD ("viewer-service")) ++ instanceSuffix i

/-- Lines 140-148: rewrite the deep copy of the base service for instance
`i` — name, metadata labels and selector (the selector reuses the component
label computed from the deployment). -/
def materializeService (bs : Service) (i : Nat) (comp : String) : Service :=
  { name? := some (newServiceName bs i),
    metaLabels? := some (dictSet (bs.metaLabels?.getD []) ("deployment-instance") (toString i)),
    selector :=
      dictSet (dictSet bs.selector ("component") comp)
        ("deployment-instance") (toString i) }

/-! ## The orchestrator as an oracle, and reconciliation -/

/-- Outcome of one Kubernetes API call, as the script distinguishes them:
success, a 409 conflict, or any other `ApiException`. -/
inductive ApiResult
  | ok
  | conflict
  | otherError
deriving DecidableEq, Repr

/-- Per-object reconciliation outcome. -/
inductive Outcome
  | created
  | replaced
  | skipped
  | failed
deriving DecidableEq, Repr

/-- A mutating orchestrator call, as recorded in the run trace.  The script
never issues `replaceService` (it only notes the possibility in a comment at
line 157); the constructor exists so that its absence is expressible. -/
inductive ApiCall
  | createDeployment (name : String)
  | replaceDeployment (name : String)
  | createService (name : String)
  | replaceService (name : String)
deriving DecidableEq, Repr

/-- Responses of the orchestrator, indexed by instance number, for each of
the up to three mutating calls an instance makes. -/
structure Oracle where
  depCreate : Nat → ApiResult
  depReplace : Nat → ApiResult
  svcCreate : Nat → ApiResult

/-- Lines 125-136: create the deployment; on 409 replace it (`replaced` on
success, `failed` when the replace itself raises); on any other error
`failed` with no further attempt. -/
def reconcileDeployment : ApiResult → ApiResult → Outcome
  | ApiResult.ok, _ => Outcome.created
  | ApiResult.conflict, ApiResult.ok => Outcome.replaced
  | ApiResult.conflict, ApiResult.conflict => Outcome.failed
  | ApiResult.conflict, ApiResult.otherError => Outcome.failed
  | ApiResult.otherError, _ => Outcome.failed

/-- Lines 150-160: create the service; on 409 skip (no replace); on any
other error `failed`. -/
def reconcileService : ApiResult → Outcome
  | ApiResult.ok => Outcome.created
  | ApiResult.conflict => Outcome.skipped
  | ApiResult.otherError => Outcome.failed

/-! ## One loop iteration and the whole run -/

/-- What one iteration of the loop at lines 80-162 leaves behind. -/
structure InstanceRecord where
  index : Nat
  vpn : String
  deployment : Deployment
  warnNoContainer : Bool
  deploymentOutcome : Outcome
  service? : Option (Service × Outcome)
deriving DecidableEq, Repr

/-- One iteration of the loop (lines 80-162) for instance `i` with token
`vpnName`: materialize the deployment, reconcile it, and if a service
template exists materialize and reconcile the service; also the list of
mutating API calls the iteration issues, in order. -/
def runInstance (streamUrl : String) (replicas : Nat) (o : Oracle) (bd : Deployment)
    (bs? : Option Service) (i : Nat) (vpnName : String) : InstanceRecord × List ApiCall :=
  let md := materializeDeployment bd i vpnName streamUrl replicas
  let dn := newDeploymentName bd i
  let dCalls :=
    ApiCall.createDeployment dn ::
      (if o.depCreate i = ApiResult.conflict then [ApiCall.replaceDeployment dn] else [])
  let svc := bs?.map (fun bs =>
    (materializeService bs i (newComponentLabel bd i), reconcileService (o.svcCreate i)))
  let sCalls :=
    match bs? with
    | none => []
    | some bs => [ApiCall.createService (newServiceName bs i)]
  ({ index := i, vpn := vpnName, deployment := md.1, warnNoContainer := !md.2,
     deploymentOutcome := reconcileDeployment (o.depCreate i) (o.depReplace i),
     service? := svc }, dCalls ++ sCalls)

/-- The loop `for i in range(num_deployments)` with `selected_vpns[i]`
(lines 80-81), written as recursion over the selected tokens with a running
index. -/
def runInstancesFrom (streamUrl : String) (replicas : Nat) (o : Oracle) (bd : Deployment)
    (bs? : Option Service) : Nat → List String → List InstanceRecord × List ApiCall
  | _, [] => ([], [])
  | i, vpnName :: rest =>
    let r1 := runInstance streamUrl replicas o bd bs? i vpnName
    let rs := runInstancesFrom streamUrl replicas o bd bs? (i + 1) rest
    (r1.1 :: rs.1, r1.2 ++ rs.2)

/-- The run configuration taken from the CLI (lines 37-45). -/
structure Config where
  streamUrl : String
  numDeployments : Nat
  replicasPerDeployment : Nat
deriving DecidableEq, Repr

/-- Result of the ConfigMap read in `get_available_vpn_configs`: missing
(404), some other `ApiException`, a ConfigMap with no `data` field, or the
list of data keys in source order. -/
inductive ConfigMapFetch
  | notFound
  | apiError
  | noData
  | found (keys : List String)
deriving DecidableEq, Repr

/-- Which `sys.exit(1)` diagnostic aborted the run. -/
inductive AbortReason
  | templateMissing
  | poolNotFound
  | poolFetchError
  | poolNoData
  | poolEmpty
  | poolExhausted
deriving DecidableEq, Repr

/-- `main`'s observable result: an abort via `sys.exit(1)` with its
diagnostic, or normal completion with the per-instance records. -/
inductive RunResult
  | aborted (r : AbortReason)
  | completed (recs : List InstanceRecord)
deriving DecidableEq, Repr

/-- `main` (lines 60-164) after kubeconfig loading: find the Deployment
template (exit if absent, line 64), fetch the ConfigMap keys and resolve the
pool (lines 68, 12-33), exit when the pool is empty (line 70) or smaller
than the requested count (line 74), else take the first `numDeployments`
tokens (line 78) and run the loop.  Also returns the trace of mutating API
calls. -/
def runMain (cfg : Config) (bd? : Option Deployment) (bs? : Option Service)
    (fetch : ConfigMapFetch) (o : Oracle) : RunResult × List ApiCall :=
  match bd? with
  | none => (RunResult.aborted AbortReason.templateMissing, [])
  | some bd =>
    match fetch with
    | ConfigMapFetch.notFound => (RunResult.aborted AbortReason.poolNotFound, [])
    | ConfigMapFetch.apiError => (RunResult.aborted AbortReason.poolFetchError, [])
    | ConfigMapFetch.noData => (RunResult.aborted AbortReason.poolNoData, [])
    | ConfigMapFetch.found keys =>
      let vpns := getAvailableVpnConfigs keys
      if vpns = [] then (RunResult.aborted AbortReason.poolEmpty, [])
      else if vpns.length < cfg.numDeployments then
        (RunResult.aborted AbortReason.poolExhausted, [])
      else
        let r := runInstancesFrom cfg.streamUrl cfg.replicasPerDeployment o bd bs? 0
          (vpns.take cfg.numDeployments)
        (RunResult.completed r.1, r.2)

/-- The tokens assigned across a completed run, in instance order. -/
def runAssignedVpns (r : RunResult × List ApiCall) : List String :=
  match r.1 with
  | RunResult.completed recs => recs.map (fun x => x.vpn)
  | RunResult.aborted _ => []

/-- The materialized deployment names of a completed run, in instance
order. -/
def runDeploymentNames (r : RunResult × List ApiCall) : List (Option String) :=
  match r.1 with
  | RunResult.completed recs => recs.map (fun x => x.deployment.name?)
  | RunResult.aborted _ => []

/-- Whether the run completed (no `sys.exit(1)`). -/
def runCompleted (r : RunResult × List ApiCall) : Bool :=
  match r.1 with
  | RunResult.completed _ => true
  | RunResult.aborted _ => false

/-! ## Store semantics for the deep-copy discipline

`copy.deepcopy(base)` (lines 86, 140) followed by in-place mutation of the
copy is modelled with explicit addresses: a store is a list of documents,
an address is an index, `deepcopy` allocates the copied contents at a fresh
address (the end of the store) and every subsequent mutation of the
iteration hits that fresh address.  The base templates live at address 0 of
their stores.  Had the script aliased instead of deep-copying, the
mutations would target address 0 and the preservation theorem would fail. -/

/-- Mutate the document at one address of a store, leaving every other
address unchanged. -/
def setAt : List α → Nat → (α → α) → List α
  | [], _, _ => []
  | x :: xs, 0, f => f x :: xs
  | x :: xs, n + 1, f => x :: setAt xs n f

/-- A placeholder deployment (only used as the `List.getD` default; reads in
`heapIter` are always in bounds). -/
def emptyDeployment : Deployment :=
  { name? := none, metaLabels? := none, replicas? := none,
    selectorMatchLabels := [], podLabels? := none, containers := [] }

/-- A placeholder service (only used as the `List.getD` default). -/
def emptyService : Service := { name? := none, metaLabels? := none, selector := [] }

/-- One loop iteration under the store semantics: read the base deployment
at address 0, allocate its deep copy at a fresh address, mutate the copy
there; same for the service when a service template exists. -/
def heapIter (streamUrl : String) (replicas : Nat) (hasSvc : Bool) (i : Nat)
    (vpnName : String) (p : List Deployment × List Service) :
    List Deployment × List Service :=
  let baseD := p.1.getD 0 emptyDeployment
  let a := p.1.length
  let ds := setAt (p.1 ++ [baseD]) a
    (fun d => (materializeDeployment d i vpnName streamUrl replicas).1)
  let ss :=
    if hasSvc then
      let baseS := p.2.getD 0 emptyService
      let b := p.2.length
      setAt (p.2 ++ [baseS]) b (fun s => materializeService s i (newComponentLabel baseD i))
    else p.2
  (ds, ss)

/-- The whole loop under the store semantics. -/
def heapRun (streamUrl : String) (replicas : Nat) (hasSvc : Bool) :
    Nat → List String → List Deployment × List Service → List Deployment × List Service
  | _, [], p => p
  | i, vpnName :: rest, p =>
    heapRun streamUrl replicas hasSvc (i + 1) rest (heapIter streamUrl replicas hasSvc i vpnName p)

/-! ## Concrete inputs used by counterexamples and witnesses -/

/-- An oracle whose every call succeeds. -/
def oracleOk : Oracle :=
  { depCreate := fun _ => ApiResult.ok, depReplace := fun _ => ApiResult.ok,
    svcCreate := fun _ => ApiResult.ok }

/-- An oracle that 409-conflicts on every create and accepts every
replace. -/
def oracleConflict : Oracle :=
  { depCreate := fun _ => ApiResult.conflict, depReplace := fun _ => ApiResult.ok,
    svcCreate := fun _ => ApiResult.conflict }

/-- An oracle failing instance 1's deployment create with a non-409 error,
all other calls succeeding. -/
def oracleFailAt1 : Oracle :=
  { depCreate := fun i => if i = 1 then ApiResult.otherError else ApiResult.ok,
    depReplace := fun _ => ApiResult.ok,
    svcCreate := fun _ => ApiResult.ok }

/-- A minimal base deployment template named `"viewer"`. -/
def bdViewer : Deployment :=
  { name? := some ("viewer"),
    metaLabels? := none,
    replicas? := some 1,
    selectorMatchLabels := [("component", "viewer")],
    podLabels? := some [],
    containers := [{ name := "viewer-box", env := [{ name := "EXISTING", value := "x" }] }] }

/-- A minimal base service template named `"viewer-svc"`. -/
def bsViewer : Service :=
  { name? := some ("viewer-svc"), metaLabels? := none,
    selector := [("component", "viewer")] }
/-! ## Lemmas about label-map updates -/

theorem dictGet?_cons_self (p : String × String) (ps : List (String × String)) :
    dictGet? (p :: ps) p.1 = some p.2 := by
  unfold dictGet?
  rw [List.find?_cons_of_pos _ (by simp)]
  rfl

theorem dictGet?_cons_ne (p : String × String) (ps : List (String × String)) (k : String)
    (h : p.1 ≠ k) : dictGet? (p :: ps) k = dictGet? ps k := by
  unfold dictGet?
  rw [List.find?_cons_of_neg _ (by simpa using h)]

theorem dictGet?_dictSet_self (m : List (String × String)) (k v : String) :
    dictGet? (dictSet m k v) k = some v := by
  induction m with
  | nil =>
    show dictGet? ((k, v) :: []) k = some v
    exact dictGet?_cons_self (k, v) []
  | cons p ps ih =>
    by_cases h : p.1 = k
    · show dictGet? (if p.1 = k then (k, v) :: ps else p :: dictSet ps k v) k = some v
      rw [if_pos h]
      exact dictGet?_cons_self (k, v) ps
    · show dictGet? (if p.1 = k then (k, v) :: ps else p :: dictSet ps k v) k = some v
      rw [if_neg h, dictGet?_cons_ne p _ k h]
      exact ih

theorem dictGet?_dictSet_other (m : List (String × String)) (k k2 v : String)
    (h : k2 ≠ k) : dictGet? (dictSet m k v) k2 = dictGet? m k2 := by
  induction m with
  | nil =>
    show dictGet? ((k, v) :: []) k2 = dictGet? [] k2
    rw [dictGet?_cons_ne (k, v) [] k2 (Ne.symm h)]
  | cons p ps ih =>
    by_cases hp : p.1 = k
    · show dictGet? (if p.1 = k then (k, v) :: ps else p :: dictSet ps k v) k2 = _
      rw [if_pos hp, dictGet?_cons_ne (k, v) ps k2 (Ne.symm h),
        dictGet?_cons_ne p ps k2 (by rw [hp]; exact Ne.symm h)]
    · show dictGet? (if p.1 = k then (k, v) :: ps else p :: dictSet ps k v) k2 = _
      rw [if_neg hp]
      by_cases hp2 : p.1 = k2
      · rw [← hp2, dictGet?_cons_self p (dictSet ps k v), dictGet?_cons_self p ps]
      · rw [dictGet?_cons_ne p _ k2 hp2, dictGet?_cons_ne p ps k2 hp2]
        exact ih
/-! ## Lemmas about the by-name environment map -/

theorem envGet?_cons_self (e : EnvVar) (es : List EnvVar) :
    envGet? (e :: es) e.name = some e := by
  unfold envGet?
  rw [List.find?_cons_of_pos _ (by simp)]

theorem envGet?_cons_ne (e : EnvVar) (es : List EnvVar) (n : String)
    (h : e.name ≠ n) : envGet? (e :: es) n = envGet? es n := by
  unfold envGet?
  rw [List.find?_cons_of_neg _ (by simpa using h)]

theorem envGet?_envSet (m : List EnvVar) (v : EnvVar) (n : String) :
    envGet? (envSet m v) n = if n = v.name then some v else envGet? m n := by
  induction m with
  | nil =>
    by_cases h : n = v.name
    · show envGet? (v :: []) n = _
      rw [if_pos h, h, envGet?_cons_self]
    · show envGet? (v :: []) n = _
      rw [if_neg h, envGet?_cons_ne v [] n (fun hh => h hh.symm)]
  | cons e es ih =>
    show envGet? (if e.name = v.name then v :: es else e :: envSet es v) n = _
    by_cases he : e.name = v.name
    · rw [if_pos he]
      by_cases h : n = v.name
      · rw [if_pos h, h, envGet?_cons_self]
      · rw [if_neg h, envGet?_cons_ne v es n (fun hh => h hh.symm),
          envGet?_cons_ne e es n (fun hh => h (he ▸ hh).symm)]
    · rw [if_neg he]
      by_cases hn : e.name = n
      · rw [← hn, envGet?_cons_self, envGet?_cons_self, if_neg he]
      · rw [envGet?_cons_ne e _ n hn, envGet?_cons_ne e es n hn]
        exact ih

theorem mem_of_mem_envSet (m : List EnvVar) (v e : EnvVar)
    (h : e ∈ envSet m v) : e = v ∨ e ∈ m := by
  induction m with
  | nil =>
    simp only [envSet] at h
    simp at h
    exact Or.inl h
  | cons x xs ih =>
    simp only [envSet] at h
    by_cases hx : x.name = v.name
    · rw [if_pos hx] at h
      rcases List.mem_cons.mp h with h1 | h2
      · exact Or.inl h1
      · exact Or.inr (List.mem_cons_of_mem x h2)
    · rw [if_neg hx] at h
      rcases List.mem_cons.mp h with h1 | h2
      · exact Or.inr (h1 ▸ List.mem_cons_self x xs)
      · rcases ih h2 with h3 | h4
        · exact Or.inl h3
        · exact Or.inr (List.mem_cons_of_mem x h4)

theorem name_mem_of_mem_envSet (m : List EnvVar) (v : EnvVar) (n : String)
    (h : n ∈ (envSet m v).map (fun e => e.name)) :
    n ∈ m.map (fun e => e.name) ∨ n = v.name := by
  rcases List.mem_map.mp h with ⟨e, he, hn⟩
  rcases mem_of_mem_envSet m v e he with h1 | h2
  · exact Or.inr (hn ▸ h1 ▸ rfl)
  · exact Or.inl (List.mem_map.mpr ⟨e, h2, hn⟩)

theorem nodup_names_envSet (m : List EnvVar) (v : EnvVar)
    (h : (m.map (fun e => e.name)).Nodup) :
    ((envSet m v).map (fun e => e.name)).Nodup := by
  induction m with
  | nil => simp [envSet]
  | cons x xs ih =>
    simp only [envSet]
    by_cases hx : x.name = v.name
    · rw [if_pos hx]
      simp only [List.map_cons, List.nodup_cons] at h ⊢
      exact ⟨hx ▸ h.1, h.2⟩
    · rw [if_neg hx]
      simp only [List.map_cons, List.nodup_cons] at h ⊢
      refine ⟨fun hmem => ?_, ih h.2⟩
      rcases name_mem_of_mem_envSet xs v x.name hmem with h1 | h2
      · exact h.1 h1
      · exact hx h2

theorem mem_envFold_aux (env : List EnvVar) :
    ∀ (acc : List EnvVar) (e : EnvVar), e ∈ env.foldl envSet acc → e ∈ acc ∨ e ∈ env := by
  induction env with
  | nil => intro acc e h; exact Or.inl h
  | cons x xs ih =>
    intro acc e h
    rcases ih (envSet acc x) e h with h1 | h2
    · rcases mem_of_mem_envSet acc x e h1 with h3 | h4
      · exact Or.inr (h3 ▸ List.mem_cons_self x xs)
      · exact Or.inl h4
    · exact Or.inr (List.mem_cons_of_mem x h2)

theorem mem_of_mem_envFold (env : List EnvVar) (e : EnvVar)
    (h : e ∈ envFold env) : e ∈ env := by
  rcases mem_envFold_aux env [] e h with h1 | h2
  · cases h1
  · exact h2

theorem nodup_names_envFold_aux (env : List EnvVar) :
    ∀ acc : List EnvVar, (acc.map (fun e => e.name)).Nodup →
      ((env.foldl envSet acc).map (fun e => e.name)).Nodup := by
  induction env with
  | nil => intro acc h; exact h
  | cons x xs ih => intro acc h; exact ih (envSet acc x) (nodup_names_envSet acc x h)

theorem nodup_names_envFold (env : List EnvVar) :
    ((envFold env).map (fun e => e.name)).Nodup :=
  nodup_names_envFold_aux env [] (by simp)

theorem envGet?_envFold (env : List EnvVar) (n : String) :
    envGet? (envFold env) n = envLast? env n := by
  induction env using List.reverseRecOn with
  | nil => rfl
  | append_singleton xs x ih =>
    unfold envFold at ih ⊢
    rw [List.foldl_append]
    show envGet? (envSet (xs.foldl envSet []) x) n = _
    rw [envGet?_envSet]
    unfold envLast?
    rw [List.filter_append]
    by_cases h : n = x.name
    · rw [if_pos h]
      have : List.filter (fun e => e.name == n) [x] = [x] := by simp [h]
      rw [this, List.getLast?_concat]
    · rw [if_neg h]
      have : List.filter (fun e => e.name == n) [x] = [] := by
        simp only [List.filter_cons, List.filter_nil,
          beq_eq_false_iff_ne.mpr (fun hh : x.name = n => h hh.symm), Bool.false_eq_true,
          if_false]
      rw [this, List.append_nil]
      exact ih

theorem envGet?_eq_of_mem_nodup (m : List EnvVar) (e : EnvVar)
    (hm : (m.map (fun x => x.name)).Nodup) (he : e ∈ m) :
    envGet? m e.name = some e := by
  induction m with
  | nil => cases he
  | cons x xs ih =>
    simp only [List.map_cons, List.nodup_cons] at hm
    rcases List.mem_cons.mp he with h1 | h2
    · rw [h1, envGet?_cons_self]
    · rw [envGet?_cons_ne x xs e.name
        (fun hh => hm.1 (hh ▸ List.mem_map.mpr ⟨e, h2, rfl⟩))]
      exact ih hm.2 h2

theorem mem_of_envGet?_eq_some (m : List EnvVar) (n : String) (e : EnvVar)
    (h : envGet? m n = some e) : e ∈ m :=
  List.mem_of_find?_eq_some h
/-! ## Lemmas about suffix filtering and occurrence removal -/

theorem replaceOvpn_append (xs : List Char) (h : containsOvpn xs = false) :
    replaceOvpn (xs ++ ovpn) = xs := by
  induction xs with
  | nil => rfl
  | cons c ys ih =>
    rcases ys with _ | ⟨y1, _ | ⟨y2, _ | ⟨y3, _ | ⟨y4, ys5⟩⟩⟩⟩
    · simp [replaceOvpn, ovpn]
    · simp [replaceOvpn, ovpn]
    · simp [replaceOvpn, ovpn]
    · simp [replaceOvpn, ovpn]
    · simp only [containsOvpn] at h
      split at h
      · exact absurd h (by simp)
      · rename_i hP
        simp only [List.cons_append, replaceOvpn]
        rw [if_neg hP]
        have := ih h
        simp only [List.cons_append] at this
        simp only [List.append_eq]
        rw [this]

theorem endsOvpn_decomp (l : List Char) (h : endsOvpn l = true) :
    ∃ xs, l = xs ++ ovpn ∧ l.take (l.length - 5) = xs := by
  unfold endsOvpn at h
  have hd : l.drop (l.length - 5) = ovpn := by
    exact beq_iff_eq.mp h
  refine ⟨l.take (l.length - 5), ?_, rfl⟩
  rw [← hd, List.take_append_drop]
/-! ## Lemmas about the batch loop and `runMain` -/

theorem runInstancesFrom_map_vpn (streamUrl : String) (replicas : Nat) (o : Oracle)
    (bd : Deployment) (bs? : Option Service) :
    ∀ (sel : List String) (i : Nat),
      ((runInstancesFrom streamUrl replicas o bd bs? i sel).1).map (fun r => r.vpn) = sel := by
  intro sel
  induction sel with
  | nil => intro i; rfl
  | cons v rest ih =>
    intro i
    simp only [runInstancesFrom, List.map_cons]
    rw [ih (i + 1)]
    rfl

theorem runInstancesFrom_map_index (streamUrl : String) (replicas : Nat) (o : Oracle)
    (bd : Deployment) (bs? : Option Service) :
    ∀ (sel : List String) (i : Nat),
      ((runInstancesFrom streamUrl replicas o bd bs? i sel).1).map (fun r => r.index)
        = List.range' i sel.length := by
  intro sel
  induction sel with
  | nil => intro i; rfl
  | cons v rest ih =>
    intro i
    simp only [runInstancesFrom, List.map_cons, List.length_cons, List.range'_succ]
    rw [ih (i + 1)]
    rfl

theorem runMain_completed_inv (cfg : Config) (bd : Deployment) (bs? : Option Service)
    (keys : List String) (o : Oracle) (recs : List InstanceRecord) (calls : List ApiCall)
    (h : runMain cfg (some bd) bs? (ConfigMapFetch.found keys) o
      = (RunResult.completed recs, calls)) :
    recs = (runInstancesFrom cfg.streamUrl cfg.replicasPerDeployment o bd bs? 0
        ((getAvailableVpnConfigs keys).take cfg.numDeployments)).1
      ∧ cfg.numDeployments ≤ (getAvailableVpnConfigs keys).length := by
  simp only [runMain] at h
  split at h
  · exact absurd h (by simp)
  · split at h
    · exact absurd h (by simp)
    · rename_i hlen
      simp only [Prod.mk.injEq, RunResult.completed.injEq] at h
      exact ⟨h.1.symm, Nat.not_lt.mp hlen⟩

theorem runMain_completed_of (cfg : Config) (bd : Deployment) (bs? : Option Service)
    (keys : List String) (o : Oracle)
    (h1 : getAvailableVpnConfigs keys ≠ [])
    (h2 : cfg.numDeployments ≤ (getAvailableVpnConfigs keys).length) :
    runMain cfg (some bd) bs? (ConfigMapFetch.found keys) o
      = (RunResult.completed
          (runInstancesFrom cfg.streamUrl cfg.replicasPerDeployment o bd bs? 0
            ((getAvailableVpnConfigs keys).take cfg.numDeployments)).1,
         (runInstancesFrom cfg.streamUrl cfg.replicasPerDeployment o bd bs? 0
            ((getAvailableVpnConfigs keys).take cfg.numDeployments)).2) := by
  simp only [runMain]
  rw [if_neg h1, if_neg (Nat.not_lt.mpr h2)]

/-! ## Lemmas about the store semantics -/

theorem setAt_getElem?_zero (l : List α) (n : Nat) (f : α → α) (h : 0 < n) :
    (setAt l n f)[0]? = l[0]? := by
  cases l with
  | nil => rfl
  | cons x xs =>
    cases n with
    | zero => exact absurd h (by simp)
    | succ m => simp [setAt]

theorem setAt_length (l : List α) : ∀ (n : Nat) (f : α → α), (setAt l n f).length = l.length := by
  induction l with
  | nil => intro n f; rfl
  | cons x xs ih =>
    intro n f
    cases n with
    | zero => rfl
    | succ m => simpa [setAt] using ih m f

theorem heapIter_fst_zero (streamUrl : String) (replicas : Nat) (hasSvc : Bool) (i : Nat)
    (vpnName : String) (p : List Deployment × List Service) (hd : 0 < p.1.length) :
    (heapIter streamUrl replicas hasSvc i vpnName p).1[0]? = p.1[0]? := by
  unfold heapIter
  rw [setAt_getElem?_zero _ _ _ hd, List.getElem?_append_left hd]

theorem heapIter_snd_zero (streamUrl : String) (replicas : Nat) (hasSvc : Bool) (i : Nat)
    (vpnName : String) (p : List Deployment × List Service) (hs : 0 < p.2.length) :
    (heapIter streamUrl replicas hasSvc i vpnName p).2[0]? = p.2[0]? := by
  unfold heapIter
  by_cases h : hasSvc
  · simp only [h, if_true]
    rw [setAt_getElem?_zero _ _ _ hs, List.getElem?_append_left hs]
  · simp [h]

theorem heapIter_fst_length (streamUrl : String) (replicas : Nat) (hasSvc : Bool) (i : Nat)
    (vpnName : String) (p : List Deployment × List Service) :
    (heapIter streamUrl replicas hasSvc i vpnName p).1.length = p.1.length + 1 := by
  unfold heapIter
  rw [setAt_length]
  simp

theorem heapIter_snd_length (streamUrl : String) (replicas : Nat) (hasSvc : Bool) (i : Nat)
    (vpnName : String) (p : List Deployment × List Service) :
    p.2.length ≤ (heapIter streamUrl replicas hasSvc i vpnName p).2.length := by
  unfold heapIter
  by_cases h : hasSvc
  · simp only [h, if_true]
    rw [setAt_length]
    simp
  · simp [h]

theorem heapRun_zero (streamUrl : String) (replicas : Nat) (hasSvc : Bool) :
    ∀ (sel : List String) (i : Nat) (p : List Deployment × List Service),
      0 < p.1.length → 0 < p.2.length →
      (heapRun streamUrl replicas hasSvc i sel p).1[0]? = p.1[0]?
        ∧ (heapRun streamUrl replicas hasSvc i sel p).2[0]? = p.2[0]? := by
  intro sel
  induction sel with
  | nil => intro i p hd hs; exact ⟨rfl, rfl⟩
  | cons v rest ih =>
    intro i p hd hs
    have hd2 : 0 < (heapIter streamUrl replicas hasSvc i v p).1.length := by
      rw [heapIter_fst_length]; omega
    have hs2 : 0 < (heapIter streamUrl replicas hasSvc i v p).2.length :=
      Nat.lt_of_lt_of_le hs (heapIter_snd_length streamUrl replicas hasSvc i v p)
    have h2 := ih (i + 1) (heapIter streamUrl replicas hasSvc i v p) hd2 hs2
    refine ⟨?_, ?_⟩
    · show (heapRun streamUrl replicas hasSvc (i + 1) rest
        (heapIter streamUrl replicas hasSvc i v p)).1[0]? = p.1[0]?
      rw [h2.1, heapIter_fst_zero _ _ _ _ _ _ hd]
    · show (heapRun streamUrl replicas hasSvc (i + 1) rest
        (heapIter streamUrl replicas hasSvc i v p)).2[0]? = p.2[0]?
      rw [h2.2, heapIter_snd_zero _ _ _ _ _ _ hs]
/-! ## Claims -/

/-- C1 (amended): in every completed run the tokens are assigned positionally —
instance `i` (the records carry indices `0,…,N-1` in order) receives the
`i`-th of the first `N` resolved pool tokens, in source order; the assigned
tokens are pairwise distinct provided the first `N` resolved tokens are
pairwise distinct.  (Unconditional distinctness fails: resolving distinct
ConfigMap keys can yield duplicate tokens, see the counterexample.) -/
theorem claim1_prefix_assignment (cfg : Config) (bd : Deployment) (bs? : Option Service)
    (keys : List String) (o : Oracle) (recs : List InstanceRecord) (calls : List ApiCall)
    (h : runMain cfg (some bd) bs? (ConfigMapFetch.found keys) o
      = (RunResult.completed recs, calls)) :
    recs.map (fun r => r.vpn) = (getAvailableVpnConfigs keys).take cfg.numDeployments
    ∧ recs.map (fun r => r.index) = List.range cfg.numDeployments
    ∧ (((getAvailableVpnConfigs keys).take cfg.numDeployments).Nodup →
        (recs.map (fun r => r.vpn)).Nodup) := by
  obtain ⟨hrecs, hle⟩ := runMain_completed_inv cfg bd bs? keys o recs calls h
  subst hrecs
  refine ⟨runInstancesFrom_map_vpn _ _ _ _ _ _ 0, ?_, ?_⟩
  · rw [runInstancesFrom_map_index, List.length_take, Nat.min_eq_left hle]
    exact (List.range_eq_range' _).symm
  · intro hn
    rw [runInstancesFrom_map_vpn]
    exact hn

/-- C1, counterexample to the claim as stated: with requested count `N = 2`
and the two distinct ConfigMap keys `"a.ovpn"` and `"a.ovpn.ovpn"` the
resolved pool has `M = 2` tokens, the run completes, and both instances are
assigned the same token `"a"` — the assigned tokens are not pairwise
distinct. -/
theorem claim1_counterexample :
    runCompleted (runMain (Config.mk ("url") 2 1) (some bdViewer) none
        (ConfigMapFetch.found ["a.ovpn", "a.ovpn.ovpn"]) oracleOk) = true
    ∧ runAssignedVpns (runMain (Config.mk ("url") 2 1) (some bdViewer) none
        (ConfigMapFetch.found ["a.ovpn", "a.ovpn.ovpn"]) oracleOk) = ["a", "a"]
    ∧ ¬ (["a", "a"] : List String).Nodup := by
  exact ⟨by decide, by decide, by decide⟩

/-- C1, witness: a concrete completed run with pool `["b", "c", "d"]` and
`N = 2` assigns `["b", "c"]`. -/
theorem claim1_prefix_assignment_witness :
    runAssignedVpns (runMain (Config.mk ("url") 2 1) (some bdViewer) none
      (ConfigMapFetch.found ["b.ovpn", "c.ovpn", "d.ovpn"]) oracleOk) = ["b", "c"] := by
  have h := runMain_completed_of (Config.mk ("url") 2 1) bdViewer none
    ["b.ovpn", "c.ovpn", "d.ovpn"] oracleOk (by decide) (by decide)
  have h2 := claim1_prefix_assignment (Config.mk ("url") 2 1) bdViewer none
    ["b.ovpn", "c.ovpn", "d.ovpn"] oracleOk _ _ h
  rw [runAssignedVpns, h]
  exact (h2.1).trans (by decide)

/-- C2 (amended): a ConfigMap data key contributes a pool entry iff it ends
with `".ovpn"`, and the resolved token of a qualifying key is the key with
every occurrence of `".ovpn"` removed (Python `str.replace` removes all
occurrences, not only the trailing one); when `".ovpn"` does not also occur
before the trailing suffix this coincides with stripping exactly the
trailing suffix. -/
theorem claim2_token_resolution (keys : List String) (t k : String) :
    (t ∈ getAvailableVpnConfigs keys ↔
      ∃ k2, k2 ∈ keys ∧ endsOvpnStr k2 = true ∧ replaceOvpnStr k2 = t)
    ∧ (k ∈ keys →
        (endsOvpnStr k = true ↔ k ∈ keys.filter (fun k2 => endsOvpnStr k2)))
    ∧ (k ∈ keys → endsOvpnStr k = true →
        containsOvpnStr (specTrailingStrip k) = false →
        replaceOvpnStr k = specTrailingStrip k) := by
  refine ⟨?_, ?_, ?_⟩
  · constructor
    · intro ht
      rcases List.mem_map.mp ht with ⟨k2, hk2, hrep⟩
      rcases List.mem_filter.mp hk2 with ⟨hmem, hend⟩
      exact ⟨k2, hmem, hend, hrep⟩
    · rintro ⟨k2, hmem, hend, hrep⟩
      exact List.mem_map.mpr ⟨k2, List.mem_filter.mpr ⟨hmem, hend⟩, hrep⟩
  · intro hk
    constructor
    · intro hend
      exact List.mem_filter.mpr ⟨hk, hend⟩
    · intro hmem
      exact (List.mem_filter.mp hmem).2
  · intro hk hend hnc
    obtain ⟨xs, hxs, htake⟩ := endsOvpn_decomp k.data hend
    have hxs_nc : containsOvpn xs = false := by
      unfold containsOvpnStr specTrailingStrip at hnc
      rw [show (⟨k.data.take (k.data.length - 5)⟩ : String).data
          = k.data.take (k.data.length - 5) from rfl, htake] at hnc
      exact hnc
    unfold replaceOvpnStr specTrailingStrip
    rw [htake, hxs, replaceOvpn_append xs hxs_nc]

/-- C2, counterexample to the claim as stated: the key `"a.ovpn.ovpn"`
qualifies (it ends with `".ovpn"`), but its resolved token is `"a"`, not
`"a.ovpn"` — the code also removes the inner occurrence of `".ovpn"`,
altering more than the trailing suffix. -/
theorem claim2_counterexample :
    getAvailableVpnConfigs ["a.ovpn.ovpn"] = ["a"]
    ∧ endsOvpnStr ("a.ovpn.ovpn") = true
    ∧ specTrailingStrip ("a.ovpn.ovpn") = "a.ovpn"
    ∧ ("a" : String) ≠ "a.ovpn" := by
  exact ⟨by decide, by decide, by decide, by decide⟩

/-- C2, witness: for the key `"us-east.ovpn"` (no inner `".ovpn"`) the
resolved token equals the trailing-suffix strip, and it enters the pool. -/
theorem claim2_token_resolution_witness :
    replaceOvpnStr ("us-east.ovpn") = specTrailingStrip ("us-east.ovpn")
    ∧ ("us-east" : String) ∈ getAvailableVpnConfigs ["us-east.ovpn", "notes.txt"] := by
  have h := claim2_token_resolution ["us-east.ovpn", "notes.txt"] ("us-east") ("us-east.ovpn")
  refine ⟨h.2.2 (by decide) (by decide) (by decide), ?_⟩
  exact (h.1).mpr ⟨"us-east.ovpn", by decide, by decide, by decide⟩

/-- C3 (amended): whenever the resolved pool has fewer tokens than the
requested instance count, the run makes zero mutating orchestrator calls,
materializes no instance, and aborts with non-zero termination — with the
pool-exhaustion diagnostic when the pool is nonempty, and with the
pool-empty diagnostic when zero tokens resolved. -/
theorem claim3_pool_insufficient (cfg : Config) (bd : Deployment) (bs? : Option Service)
    (keys : List String) (o : Oracle)
    (h : (getAvailableVpnConfigs keys).length < cfg.numDeployments) :
    runMain cfg (some bd) bs? (ConfigMapFetch.found keys) o
      = (RunResult.aborted
          (if getAvailableVpnConfigs keys = [] then AbortReason.poolEmpty
            else AbortReason.poolExhausted), []) := by
  simp only [runMain]
  by_cases he : getAvailableVpnConfigs keys = []
  · rw [if_pos he, if_pos he]
  · rw [if_neg he, if_neg he, if_pos h]

/-- C3, counterexample to the claim as stated: with `N = 1` and a ConfigMap
whose only key does not qualify, `M = 0 < N`, and the run aborts with the
pool-empty diagnostic (line 71), not the pool-exhaustion one (line 75). -/
theorem claim3_counterexample :
    runMain (Config.mk ("url") 1 1) (some bdViewer) none
        (ConfigMapFetch.found ["readme.txt"]) oracleOk
      = (RunResult.aborted AbortReason.poolEmpty, [])
    ∧ AbortReason.poolEmpty ≠ AbortReason.poolExhausted
    ∧ (getAvailableVpnConfigs ["readme.txt"]).length < 1 := by
  exact ⟨by decide, by decide, by decide⟩

/-- C3, witness: requesting 3 instances from a 1-token pool aborts with the
pool-exhaustion diagnostic and an empty call trace. -/
theorem claim3_pool_insufficient_witness :
    runMain (Config.mk ("url") 3 1) (some bdViewer) none
        (ConfigMapFetch.found ["a.ovpn"]) oracleOk
      = (RunResult.aborted AbortReason.poolExhausted, []) := by
  have h := claim3_pool_insufficient (Config.mk ("url") 3 1) bdViewer none
    ["a.ovpn"] oracleOk (by decide)
  rw [h]
  decide
/-- C4 (confirmed): for every materialized instance pair, the workload
selector labels, the pod-template labels and (when a service template is
present) the service selector labels carry the same component value — the
base component label plus `"-" ++ i` — and the same instance-index value
`toString i` under the `deployment-instance` key. -/
theorem claim4_label_agreement (streamUrl : String) (replicas i : Nat) (o : Oracle)
    (bd : Deployment) (bs? : Option Service) (vpnName : String) :
    dictGet? ((runInstance streamUrl replicas o bd bs? i vpnName).1.deployment.selectorMatchLabels)
        ("component") = some (newComponentLabel bd i)
    ∧ dictGet? (((runInstance streamUrl replicas o bd bs? i vpnName).1.deployment.podLabels?).getD [])
        ("component") = some (newComponentLabel bd i)
    ∧ dictGet? ((runInstance streamUrl replicas o bd bs? i vpnName).1.deployment.selectorMatchLabels)
        ("deployment-instance") = some (toString i)
    ∧ dictGet? (((runInstance streamUrl replicas o bd bs? i vpnName).1.deployment.podLabels?).getD [])
        ("deployment-instance") = some (toString i)
    ∧ ∀ s oc, (runInstance streamUrl replicas o bd bs? i vpnName).1.service? = some (s, oc) →
        dictGet? s.selector ("component") = some (newComponentLabel bd i)
        ∧ dictGet? s.selector ("deployment-instance") = some (toString i) := by
  refine ⟨?_, ?_, ?_, ?_, ?_⟩
  · show dictGet? (dictSet (dictSet bd.selectorMatchLabels ("component") (newComponentLabel bd i))
      ("deployment-instance") (toString i)) ("component") = some (newComponentLabel bd i)
    rw [dictGet?_dictSet_other _ _ _ _ (by decide), dictGet?_dictSet_self]
  · show dictGet? (dictSet (dictSet ((bd.podLabels?).getD []) ("component") (newComponentLabel bd i))
      ("deployment-instance") (toString i)) ("component") = some (newComponentLabel bd i)
    rw [dictGet?_dictSet_other _ _ _ _ (by decide), dictGet?_dictSet_self]
  · show dictGet? (dictSet (dictSet bd.selectorMatchLabels ("component") (newComponentLabel bd i))
      ("deployment-instance") (toString i)) ("deployment-instance") = some (toString i)
    rw [dictGet?_dictSet_self]
  · show dictGet? (dictSet (dictSet ((bd.podLabels?).getD []) ("component") (newComponentLabel bd i))
      ("deployment-instance") (toString i)) ("deployment-instance") = some (toString i)
    rw [dictGet?_dictSet_self]
  · intro s oc h
    have hsvc : (runInstance streamUrl replicas o bd bs? i vpnName).1.service?
        = bs?.map (fun bs => (materializeService bs i (newComponentLabel bd i),
          reconcileService (o.svcCreate i))) := rfl
    rw [hsvc] at h
    rcases Option.map_eq_some'.mp h with ⟨bs, hbs, hpair⟩
    have hs : s = materializeService bs i (newComponentLabel bd i) := by
      have := congrArg Prod.fst hpair
      exact this.symm
    subst hs
    constructor
    · show dictGet? (dictSet (dictSet bs.selector ("component") (newComponentLabel bd i))
        ("deployment-instance") (toString i)) ("component") = some (newComponentLabel bd i)
      rw [dictGet?_dictSet_other _ _ _ _ (by decide), dictGet?_dictSet_self]
    · show dictGet? (dictSet (dictSet bs.selector ("component") (newComponentLabel bd i))
        ("deployment-instance") (toString i)) ("deployment-instance") = some (toString i)
      rw [dictGet?_dictSet_self]

/-- C4, witness: the label agreement at a concrete instance with a service
template present. -/
theorem claim4_label_agreement_witness :
    dictGet? ((runInstance ("url") 1 oracleOk bdViewer (some bsViewer) 0 ("vpnA")).1.deployment.selectorMatchLabels)
        ("component") = some ("viewer-0")
    ∧ dictGet? ((materializeService bsViewer 0 (newComponentLabel bdViewer 0)).selector)
        ("deployment-instance") = some ("0") := by
  have h := claim4_label_agreement ("url") 1 0 oracleOk bdViewer (some bsViewer) ("vpnA")
  refine ⟨(h.1).trans (by decide), ?_⟩
  have h5 := h.2.2.2.2 (materializeService bsViewer 0 (newComponentLabel bdViewer 0))
    (reconcileService (oracleOk.svcCreate 0)) rfl
  exact (h5.2).trans (by decide)
/-- C5 (confirmed): per applied object — a 409 conflict on the workload
create triggers a full replace call (outcome `replaced` on success, `failed`
when the replace itself errors); a conflict on the service create is never
followed by a replace and yields `skipped` (the script only prints a note,
line 158); any other error yields `failed` immediately, with no retry and no
replace attempt; no service-replace call ever appears in the trace. -/
theorem claim5_conflict_policy (streamUrl : String) (replicas i : Nat) (o : Oracle)
    (bd : Deployment) (bs : Service) (vpnName : String) :
    (o.depCreate i = ApiResult.ok →
      (runInstance streamUrl replicas o bd (some bs) i vpnName).1.deploymentOutcome
        = Outcome.created)
    ∧ (o.depCreate i = ApiResult.conflict → o.depReplace i = ApiResult.ok →
        (runInstance streamUrl replicas o bd (some bs) i vpnName).1.deploymentOutcome
          = Outcome.replaced
        ∧ (runInstance streamUrl replicas o bd (some bs) i vpnName).2
          = [ApiCall.createDeployment (newDeploymentName bd i),
             ApiCall.replaceDeployment (newDeploymentName bd i),
             ApiCall.createService (newServiceName bs i)])
    ∧ (o.depCreate i = ApiResult.conflict → o.depReplace i ≠ ApiResult.ok →
        (runInstance streamUrl replicas o bd (some bs) i vpnName).1.deploymentOutcome
          = Outcome.failed)
    ∧ (o.depCreate i = ApiResult.otherError →
        (runInstance streamUrl replicas o bd (some bs) i vpnName).1.deploymentOutcome
          = Outcome.failed
        ∧ (runInstance streamUrl replicas o bd (some bs) i vpnName).2
          = [ApiCall.createDeployment (newDeploymentName bd i),
             ApiCall.createService (newServiceName bs i)])
    ∧ (∀ s oc, (runInstance streamUrl replicas o bd (some bs) i vpnName).1.service?
        = some (s, oc) → oc ≠ Outcome.replaced)
    ∧ (o.svcCreate i = ApiResult.conflict →
        (runInstance streamUrl replicas o bd (some bs) i vpnName).1.service?
          = some (materializeService bs i (newComponentLabel bd i), Outcome.skipped))
    ∧ (o.svcCreate i = ApiResult.otherError →
        (runInstance streamUrl replicas o bd (some bs) i vpnName).1.service?
          = some (materializeService bs i (newComponentLabel bd i), Outcome.failed))
    ∧ (∀ nm, ApiCall.replaceService nm ∉ (runInstance streamUrl replicas o bd (some bs) i vpnName).2) := by
  refine ⟨?_, ?_, ?_, ?_, ?_, ?_, ?_, ?_⟩
  · intro h
    cases hr : o.depReplace i <;> simp [runInstance, reconcileDeployment, h, hr]
  · intro h1 h2
    constructor
    · simp [runInstance, reconcileDeployment, h1, h2]
    · simp [runInstance, h1]
  · intro h1 h2
    cases hr : o.depReplace i
    · exact absurd hr h2
    · simp [runInstance, reconcileDeployment, h1, hr]
    · simp [runInstance, reconcileDeployment, h1, hr]
  · intro h
    constructor
    · cases hr : o.depReplace i <;> simp [runInstance, reconcileDeployment, h, hr]
    · simp [runInstance, h]
  · intro s oc h
    have hsvc : (runInstance streamUrl replicas o bd (some bs) i vpnName).1.service?
        = some (materializeService bs i (newComponentLabel bd i),
            reconcileService (o.svcCreate i)) := rfl
    rw [hsvc] at h
    have hoc : oc = reconcileService (o.svcCreate i) := by
      have := congrArg (fun x => Option.map Prod.snd x) h
      simpa using this.symm
    rw [hoc]
    cases hr : o.svcCreate i <;> simp [reconcileService]
  · intro h
    have hsvc : (runInstance streamUrl replicas o bd (some bs) i vpnName).1.service?
        = some (materializeService bs i (newComponentLabel bd i),
            reconcileService (o.svcCreate i)) := rfl
    rw [hsvc, h]
    rfl
  · intro h
    have hsvc : (runInstance streamUrl replicas o bd (some bs) i vpnName).1.service?
        = some (materializeService bs i (newComponentLabel bd i),
            reconcileService (o.svcCreate i)) := rfl
    rw [hsvc, h]
    rfl
  · intro nm
    by_cases hdc : o.depCreate i = ApiResult.conflict <;> simp [runInstance, hdc]

/-- C5, witness: with a 409 on every create and a successful replace, the
concrete instance's workload is `replaced`, its service is `skipped`, and
the trace is create-replace-createService. -/
theorem claim5_conflict_policy_witness :
    (runInstance ("url") 1 oracleConflict bdViewer (some bsViewer) 0 ("vpnA")).1.deploymentOutcome
      = Outcome.replaced
    ∧ (runInstance ("url") 1 oracleConflict bdViewer (some bsViewer) 0 ("vpnA")).1.service?
      = some (materializeService bsViewer 0 (newComponentLabel bdViewer 0), Outcome.skipped) := by
  have h := claim5_conflict_policy ("url") 1 0 oracleConflict bdViewer bsViewer ("vpnA")
  exact ⟨(h.2.1 rfl rfl).1, h.2.2.2.2.2.1 rfl⟩

/-- C6 (confirmed): whenever setup passes — workload template present,
nonempty pool at least as large as the requested count — the run completes
(no `sys.exit(1)`) for every oracle whatsoever, in particular however many
individual instances fail; all instance indices `0,…,N-1` are materialized,
attempted and recorded, in order. -/
theorem claim6_partial_failure_isolation (cfg : Config) (bd : Deployment) (bs? : Option Service)
    (keys : List String) (o : Oracle)
    (h1 : getAvailableVpnConfigs keys ≠ [])
    (h2 : cfg.numDeployments ≤ (getAvailableVpnConfigs keys).length) :
    ∃ recs calls,
      runMain cfg (some bd) bs? (ConfigMapFetch.found keys) o
        = (RunResult.completed recs, calls)
      ∧ recs.length = cfg.numDeployments
      ∧ recs.map (fun r => r.index) = List.range cfg.numDeployments := by
  refine ⟨_, _, runMain_completed_of cfg bd bs? keys o h1 h2, ?_, ?_⟩
  · have hv := runInstancesFrom_map_vpn cfg.streamUrl cfg.replicasPerDeployment o bd bs?
      ((getAvailableVpnConfigs keys).take cfg.numDeployments) 0
    have := congrArg List.length hv
    rw [List.length_map] at this
    rw [this, List.length_take, Nat.min_eq_left h2]
  · rw [runInstancesFrom_map_index, List.length_take, Nat.min_eq_left h2]
    exact (List.range_eq_range' _).symm

/-- C6, witness: a 3-instance run whose index-1 deployment create fails with
a non-409 error still completes. -/
theorem claim6_partial_failure_isolation_witness :
    runCompleted (runMain (Config.mk ("url") 3 1) (some bdViewer) (some bsViewer)
      (ConfigMapFetch.found ["vpnA.ovpn", "vpnB.ovpn", "vpnC.ovpn"]) oracleFailAt1) = true := by
  obtain ⟨recs, calls, h, hlen, hidx⟩ := claim6_partial_failure_isolation
    (Config.mk ("url") 3 1) bdViewer (some bsViewer)
    ["vpnA.ovpn", "vpnB.ovpn", "vpnC.ovpn"] oracleFailAt1 (by decide) (by decide)
  rw [runCompleted, h]
/-- C7 (amended): after injection the well-known container's environment
lists `BOX_NAME = "box" ++ "-" ++ i`, `STREAM_URL` and `VPN_CONFIG` with
exactly the injected values (any pre-existing variable with one of those
names is overwritten, and names are unique in the result); every
pre-existing variable with any other name is preserved except that, when
several pre-existing variables share one name, only the last occurrence is
kept (the env list is folded into a by-name map first); nothing with a new
name is invented. -/
theorem claim7_env_injection (env : List EnvVar) (suffix streamUrl vpnName : String) :
    envGet? (injectEnv env suffix streamUrl vpnName) ("BOX_NAME")
      = some ⟨"BOX_NAME", "box" ++ suffix⟩
    ∧ envGet? (injectEnv env suffix streamUrl vpnName) ("STREAM_URL")
      = some ⟨"STREAM_URL", streamUrl⟩
    ∧ envGet? (injectEnv env suffix streamUrl vpnName) ("VPN_CONFIG")
      = some ⟨"VPN_CONFIG", vpnName⟩
    ∧ ((injectEnv env suffix streamUrl vpnName).map (fun e => e.name)).Nodup
    ∧ (∀ e, e ∈ env → e.name ∉ injectedNames → envLast? env e.name = some e →
        e ∈ injectEnv env suffix streamUrl vpnName)
    ∧ (∀ e, e ∈ injectEnv env suffix streamUrl vpnName →
        e.name ∈ injectedNames ∨ e ∈ env) := by
  refine ⟨?_, ?_, ?_, ?_, ?_, ?_⟩
  · unfold injectEnv
    rw [envGet?_envSet, if_neg (show ("BOX_NAME" : String) ≠ ("VPN_CONFIG" : String) by decide),
      envGet?_envSet, if_neg (show ("BOX_NAME" : String) ≠ ("STREAM_URL" : String) by decide),
      envGet?_envSet, if_pos rfl]
  · unfold injectEnv
    rw [envGet?_envSet, if_neg (show ("STREAM_URL" : String) ≠ ("VPN_CONFIG" : String) by decide),
      envGet?_envSet, if_pos rfl]
  · unfold injectEnv
    rw [envGet?_envSet, if_pos rfl]
  · exact nodup_names_envSet _ _ (nodup_names_envSet _ _
      (nodup_names_envSet _ _ (nodup_names_envFold env)))
  · intro e he hnin hlast
    simp only [injectedNames, List.mem_cons, List.not_mem_nil, or_false, not_or] at hnin
    have h1 : envGet? (envFold env) e.name = some e := by
      rw [envGet?_envFold]
      exact hlast
    have h2 : envGet? (injectEnv env suffix streamUrl vpnName) e.name = some e := by
      unfold injectEnv
      rw [envGet?_envSet, if_neg hnin.2.2, envGet?_envSet, if_neg hnin.2.1,
        envGet?_envSet, if_neg hnin.1]
      exact h1
    exact mem_of_envGet?_eq_some _ _ _ h2
  · intro e he
    unfold injectEnv at he
    rcases mem_of_mem_envSet _ _ _ he with h1 | h1
    · exact Or.inl (by rw [h1]; show ("VPN_CONFIG" : String) ∈ injectedNames; decide)
    rcases mem_of_mem_envSet _ _ _ h1 with h2 | h2
    · exact Or.inl (by rw [h2]; show ("STREAM_URL" : String) ∈ injectedNames; decide)
    rcases mem_of_mem_envSet _ _ _ h2 with h3 | h3
    · exact Or.inl (by rw [h3]; show ("BOX_NAME" : String) ∈ injectedNames; decide)
    · exact Or.inr (mem_of_mem_envFold env e h3)

/-- C7, counterexample to the claim as stated: with two pre-existing
variables both named `"FOO"` (a name distinct from the three injected ones),
the first of them is not preserved — the by-name fold keeps only the last
occurrence. -/
theorem claim7_counterexample :
    (⟨"FOO", "1"⟩ : EnvVar) ∈ ([⟨"FOO", "1"⟩, ⟨"FOO", "2"⟩] : List EnvVar)
    ∧ ("FOO" : String) ∉ injectedNames
    ∧ (⟨"FOO", "1"⟩ : EnvVar) ∉ injectEnv [⟨"FOO", "1"⟩, ⟨"FOO", "2"⟩] ("-0") ("url") ("vpnA")
    ∧ (⟨"FOO", "2"⟩ : EnvVar) ∈ injectEnv [⟨"FOO", "1"⟩, ⟨"FOO", "2"⟩] ("-0") ("url") ("vpnA") := by
  exact ⟨by decide, by decide, by decide, by decide⟩

/-- C7, witness: a concrete injection where `BOX_NAME` is overwritten with
`"box-0"` and the unrelated variable `KEEP` is preserved. -/
theorem claim7_env_injection_witness :
    envGet? (injectEnv [⟨"KEEP", "k"⟩, ⟨"BOX_NAME", "old"⟩] ("-0") ("url") ("vpnA"))
        ("BOX_NAME") = some ⟨"BOX_NAME", "box-0"⟩
    ∧ (⟨"KEEP", "k"⟩ : EnvVar)
        ∈ injectEnv [⟨"KEEP", "k"⟩, ⟨"BOX_NAME", "old"⟩] ("-0") ("url") ("vpnA") := by
  have h := claim7_env_injection [⟨"KEEP", "k"⟩, ⟨"BOX_NAME", "old"⟩] ("-0") ("url") ("vpnA")
  refine ⟨(h.1).trans (by decide), ?_⟩
  exact h.2.2.2.2.1 ⟨"KEEP", "k"⟩ (by decide) (by decide) (by decide)

/-- C8 (confirmed, under the store semantics of `copy.deepcopy`): after all
instances are processed, the documents at the base addresses — the loaded
deployment template and the loaded service template — are exactly what was
loaded; every iteration mutates only its freshly allocated copies. -/
theorem claim8_base_templates_immutable (streamUrl : String) (replicas : Nat) (hasSvc : Bool)
    (sel : List String) (bd : Deployment) (bs : Service) :
    (heapRun streamUrl replicas hasSvc 0 sel ([bd], [bs])).1[0]? = some bd
    ∧ (heapRun streamUrl replicas hasSvc 0 sel ([bd], [bs])).2[0]? = some bs := by
  have h := heapRun_zero streamUrl replicas hasSvc sel 0 ([bd], [bs]) (by simp) (by simp)
  exact ⟨h.1.trans (by simp), h.2.trans (by simp)⟩

/-- C9 (confirmed): the spec's worked example — three instances from the
four-token pool `vpnA..vpnD` with base workload name `"viewer"` produce
deployments `viewer-0, viewer-1, viewer-2` with tokens `vpnA, vpnB, vpnC`,
and `vpnD` is unused. -/
theorem claim9_example_run :
    runDeploymentNames (runMain (Config.mk ("url") 3 1) (some bdViewer) none
        (ConfigMapFetch.found ["vpnA.ovpn", "vpnB.ovpn", "vpnC.ovpn", "vpnD.ovpn"]) oracleOk)
      = [some ("viewer-0"), some ("viewer-1"), some ("viewer-2")]
    ∧ runAssignedVpns (runMain (Config.mk ("url") 3 1) (some bdViewer) none
        (ConfigMapFetch.found ["vpnA.ovpn", "vpnB.ovpn", "vpnC.ovpn", "vpnD.ovpn"]) oracleOk)
      = ["vpnA", "vpnB", "vpnC"]
    ∧ ("vpnD" : String) ∉ runAssignedVpns (runMain (Config.mk ("url") 3 1) (some bdViewer) none
        (ConfigMapFetch.found ["vpnA.ovpn", "vpnB.ovpn", "vpnC.ovpn", "vpnD.ovpn"]) oracleOk) := by
  exact ⟨by decide, by decide, by decide⟩

/-- C10 (confirmed): when several containers are named `"viewer-box"`, only
the first one in list order receives the injected environment (the loop
`break`s); every container after it — later `"viewer-box"` ones included —
is returned unchanged, and the updated-flag is `true`, so the
missing-container warning does not fire. -/
theorem claim10_first_container_only (suffix streamUrl vpnName : String)
    (pre post : List Container) (c : Container)
    (hpre : ∀ x ∈ pre, x.name ≠ ("viewer-box" : String))
    (hc : c.name = ("viewer-box" : String)) :
    updateContainers suffix streamUrl vpnName (pre ++ c :: post)
      = (pre ++ { c with env := injectEnv c.env suffix streamUrl vpnName } :: post, true) := by
  induction pre with
  | nil =>
    simp only [List.nil_append]
    simp [updateContainers, hc]
  | cons x xs ih =>
    have hx : x.name ≠ ("viewer-box" : String) := hpre x (List.mem_cons_self x xs)
    have ih2 := ih (fun y hy => hpre y (List.mem_cons_of_mem x hy))
    simp only [List.cons_append, updateContainers, if_neg hx, List.append_eq, ih2]

/-- C10, witness: with two `"viewer-box"` containers, only the first gets
the injected environment, the second keeps its environment, and the flag is
`true`. -/
theorem claim10_first_container_only_witness :
    updateContainers ("-0") ("url") ("vpnA")
        [{ name := "viewer-box", env := [] },
         { name := "viewer-box", env := [⟨"A", "1"⟩] }]
      = ([{ name := "viewer-box", env := injectEnv [] ("-0") ("url") ("vpnA") },
          { name := "viewer-box", env := [⟨"A", "1"⟩] }], true) := by
  exact claim10_first_container_only ("-0") ("url") ("vpnA") []
    [{ name := "viewer-box", env := [⟨"A", "1"⟩] }]
    { name := "viewer-box", env := [] } (by simp) rfl
